import Mathlib

/-!
Shallow embedding of the health-check engine of `ethereum-rpc-checker`
(`src/cmd/ethereum-rpc-checker/main.go`).

The embedding covers:
* `hexToInt` (main.go:300-303): Go `strings.TrimPrefix(s, "0x")` followed by
  `strconv.ParseInt(s, 16, 64)`;
* `checkBlockchainRPC` (main.go:265-298): the per-endpoint probe step, as a
  pure transition on the gauge state, parameterised by the probe result the
  network delivers;
* the per-cycle loop of `main` (main.go:218-224) over the configured
  endpoints;
* the startup path of `main` (main.go:209-229) after the configuration file
  has been parsed.

Gauge values are Prometheus `float64` gauges in the source; every value the
engine ever writes is an integral value (0, 1, or `float64(blockNum)`), so
gauges are modelled as `Int`.  (`float64` conversion is exact for the values
relevant to the claims; sign is preserved in all cases.)
-/

/-- Error classification of `strconv.ParseInt`: `ErrSyntax` for an empty or
non-hex body, `ErrRange` for a value outside the signed 64-bit range. -/
inductive DecodeErr where
  | syntaxErr
  | rangeErr
deriving DecidableEq

/-- Value of a single hex digit, as accepted by Go `strconv.ParseInt` with
base 16: `0-9`, `a-f`, `A-F`.  `none` for any other character. -/
def hexDigitValue (c : Char) : Option Nat :=
  if '0' ≤ c ∧ c ≤ '9' then some (c.toNat - 48)
  else if 'a' ≤ c ∧ c ≤ 'f' then some (c.toNat - 87)
  else if 'A' ≤ c ∧ c ≤ 'F' then some (c.toNat - 55)
  else none

/-- Accumulating base-16 digit parser: the digit loop of Go
`strconv.ParseUint` (exact mathematical value; overflow is checked
afterwards against the `ParseInt` cutoff). -/
def parseHexNatAux : List Char → Nat → Option Nat
  | [], acc => some acc
  | c :: cs, acc =>
    match hexDigitValue c with
    | some d => parseHexNatAux cs (acc * 16 + d)
    | none => none

/-- Base-16 digit string to `Nat`: fails on the empty string or on any
non-hex character, exactly as Go `strconv.ParseUint(s, 16, _)` does for the
digit body. -/
def parseHexNat : List Char → Option Nat
  | [] => none
  | c :: cs => parseHexNatAux (c :: cs) 0

/-- The numeric value of a list of hex digits (junk characters count 0);
only used under the hypothesis that all characters are hex digits. -/
def hexStep (a : Nat) (c : Char) : Nat := a * 16 + (hexDigitValue c).getD 0

/-- Numeric value of a hex digit list. -/
def hexValue (cs : List Char) : Nat := List.foldl hexStep 0 cs

/-- Sign handling of Go `strconv.ParseInt`: an optional single leading `+`
or `-` is picked off before the digits. -/
def signSplit (cs : List Char) : Bool × List Char :=
  match cs with
  | [] => (false, [])
  | c :: rest =>
    if c = '+' then (false, rest)
    else if c = '-' then (true, rest)
    else (false, c :: rest)

/-- Go `strconv.ParseInt(s, 16, 64)`: optional sign, non-empty all-hex body,
signed 64-bit range check (`un ≥ 2^63` rejected when non-negative,
`un > 2^63` rejected when negative). -/
def parseIntBase16 (cs : List Char) : Except DecodeErr Int :=
  match signSplit cs with
  | (neg, ds) =>
    match parseHexNat ds with
    | none => Except.error DecodeErr.syntaxErr
    | some n =>
      if neg then
        if n ≤ 9223372036854775808 then Except.ok (-(n : Int))
        else Except.error DecodeErr.rangeErr
      else
        if n < 9223372036854775808 then Except.ok (n : Int)
        else Except.error DecodeErr.rangeErr

/-- Go `strings.TrimPrefix(s, "0x")`: drop the first two characters exactly
when they are `0x`. -/
def trimPrefix0x (cs : List Char) : List Char :=
  match cs with
  | c1 :: c2 :: rest => if c1 = '0' ∧ c2 = 'x' then rest else c1 :: c2 :: rest
  | _ => cs

/-- `hexToInt` (main.go:300-303): strip an optional `0x`, then
`strconv.ParseInt(_, 16, 64)`. -/
def hexToInt (s : String) : Except DecodeErr Int :=
  parseIntBase16 (trimPrefix0x s.data)

example : hexToInt "0x1b4" = Except.ok 436 := rfl
example : hexToInt "1b4" = Except.ok 436 := rfl
example : hexToInt "-1b4" = Except.ok (-436) := rfl
example : hexToInt "" = Except.error DecodeErr.syntaxErr := rfl
example : hexToInt "0x" = Except.error DecodeErr.syntaxErr := rfl
example : hexToInt "notahex" = Except.error DecodeErr.syntaxErr := rfl
example : hexToInt "8000000000000000" = Except.error DecodeErr.rangeErr := rfl
example : hexToInt "7fffffffffffffff" = Except.ok 9223372036854775807 := rfl
example : hexToInt "-8000000000000000" = Except.ok (-9223372036854775808) := rfl

/-- `Endpoint` (main.go:170-173): a named probe target. -/
structure Endpoint where
  name : String
  url : String
deriving DecidableEq

/-- `Config` (main.go:161-168); the nested `Prometheus.Address` field is
flattened to `address`. -/
structure Config where
  endpoints : List Endpoint
  interval : Int
  method : String
  address : String

/-- What the network delivers for one probe of one endpoint: `connectErr`
models `rpcDial` returning an error (main.go:271-276), `callErr` models
`client.CallContext` returning an error (main.go:280-285), and `ok raw`
models a successful call whose string result is `raw` (main.go:279-287). -/
inductive ProbeResult where
  | connectErr
  | callErr
  | ok (raw : String)
deriving DecidableEq

/-- The two Prometheus gauge vectors of the program
(`blockchain_rpc_healthy` and `blockchain_block_number`, main.go:192-200),
each a map from the `endpoint` label to the last value set, `none` before
the first write for that label. -/
structure GaugeState where
  rpcHealthy : String → Option Int
  blockNumber : String → Option Int

/-- `GaugeVec.WithLabelValues(label).Set(v)`: overwrite the value at one
label, leave every other label unchanged. -/
def setGauge (f : String → Option Int) (label : String) (v : Int) :
    String → Option Int :=
  fun l => if l = label then some v else f l

/-- `checkBlockchainRPC` (main.go:265-298) as a transition on the gauge
state.  The dial outcome, call outcome and raw result are summarised by the
`ProbeResult` argument; the three early-return error paths each set
`rpc_healthy` to 0, the success path sets `rpc_healthy` to 1 and then
`block_number` to the decoded value. -/
def checkBlockchainRPC (st : GaugeState) (ep : Endpoint) (pr : ProbeResult) :
    GaugeState :=
  match pr with
  | ProbeResult.connectErr =>
      { st with rpcHealthy := setGauge st.rpcHealthy ep.name 0 }
  | ProbeResult.callErr =>
      { st with rpcHealthy := setGauge st.rpcHealthy ep.name 0 }
  | ProbeResult.ok raw =>
      match hexToInt raw with
      | Except.error _ =>
          { st with rpcHealthy := setGauge st.rpcHealthy ep.name 0 }
      | Except.ok blockNum =>
          { st with
            rpcHealthy := setGauge st.rpcHealthy ep.name 1,
            blockNumber := setGauge st.blockNumber ep.name blockNum }

/-- The per-cycle loop of `main` (main.go:220-222): probe every configured
endpoint in order.  `net` gives the network's response to each probe. -/
def runCycle (eps : List Endpoint) (net : Endpoint → ProbeResult)
    (st : GaugeState) : GaugeState :=
  match eps with
  | [] => st
  | ep :: rest => runCycle rest net (checkBlockchainRPC st ep (net ep))

/-- The per-cycle loop again, also recording which endpoints were probed, in
order.  The loop body has no `break`, `continue` or retry, so the recorded
trace is built unconditionally alongside the state. -/
def runCycleTrace (eps : List Endpoint) (net : Endpoint → ProbeResult)
    (st : GaugeState) : GaugeState × List Endpoint :=
  match eps with
  | [] => (st, [])
  | ep :: rest =>
    let r := runCycleTrace rest net (checkBlockchainRPC st ep (net ep))
    (r.1, ep :: r.2)

/-- The `rpc_healthy` value `checkBlockchainRPC` writes for a given probe
result: 1 exactly when the call succeeded and the result decoded. -/
def healthyVal (pr : ProbeResult) : Int :=
  match pr with
  | ProbeResult.connectErr => 0
  | ProbeResult.callErr => 0
  | ProbeResult.ok raw =>
    match hexToInt raw with
    | Except.ok _ => 1
    | Except.error _ => 0

/-- A probe fails (at connect, call or decode stage). -/
def probeFails (pr : ProbeResult) : Prop :=
  pr = ProbeResult.connectErr ∨ pr = ProbeResult.callErr ∨
    ∃ raw e, pr = ProbeResult.ok raw ∧ hexToInt raw = Except.error e

/-- Outcome of `main` after the configuration has been parsed. -/
inductive StartupResult where
  | panicked
  | started
deriving DecidableEq

/-- `time.Duration(config.Interval) * time.Minute` (main.go:215): signed
64-bit multiplication by 60·10^9 nanoseconds, with two's-complement
wrap-around (2^63 = 9223372036854775808, 2^64 = 18446744073709551616). -/
def durMinutes (interval : Int) : Int :=
  ((interval * 60000000000 + 9223372036854775808) % 18446744073709551616)
    - 9223372036854775808

/-- The startup path of `main` (main.go:209-229) after `loadConfig` has
returned: `loadConfig` (main.go:239-246) only unmarshals the YAML and
performs no validation of interval, endpoints or method; `time.NewTicker`
panics exactly when its duration is non-positive; otherwise the scheduler
goroutine is started with the configured endpoints and method as they are. -/
def mainStartup (c : Config) : StartupResult :=
  if durMinutes c.interval ≤ 0 then StartupResult.panicked
  else StartupResult.started

/-- Empty gauge state: no label of either gauge has been written yet. -/
def stEmpty : GaugeState := ⟨fun _ => none, fun _ => none⟩

/-- A sample endpoint. -/
def epA : Endpoint := ⟨"A", "http://a.example"⟩

/-- A second sample endpoint. -/
def epB : Endpoint := ⟨"B", "http://b.example"⟩

/-- A sample network: endpoint `A` answers `0x0`, endpoint `B` refuses the
connection. -/
def netAB : Endpoint → ProbeResult :=
  fun e => if e.name = "A" then ProbeResult.ok "0x0" else ProbeResult.connectErr

example :
    (checkBlockchainRPC stEmpty epA (ProbeResult.ok "0x1b4")).rpcHealthy "A"
      = some 1 := rfl
example :
    (checkBlockchainRPC stEmpty epA (ProbeResult.ok "0x1b4")).blockNumber "A"
      = some 436 := rfl
example :
    (checkBlockchainRPC stEmpty epA ProbeResult.callErr).blockNumber "A"
      = none := rfl
example :
    (runCycle [epA, epB] netAB stEmpty).rpcHealthy "B" = some 0 := rfl
example :
    (runCycle [epA, epB] netAB stEmpty).blockNumber "A" = some 0 := rfl
example : mainStartup ⟨[], 1, "", ""⟩ = StartupResult.started := rfl
example : mainStartup ⟨[epA], 0, "m", "a"⟩ = StartupResult.panicked := rfl

/-! ## Lemmas about the decoder -/

theorem parseHexNatAux_valid (cs : List Char) :
    ∀ acc : Nat, (∀ c ∈ cs, (hexDigitValue c).isSome) →
      parseHexNatAux cs acc = some (List.foldl hexStep acc cs) := by
  induction cs with
  | nil => intro acc _; rfl
  | cons c cs ih =>
    intro acc h
    have hc : (hexDigitValue c).isSome := h c (List.mem_cons_self c cs)
    obtain ⟨d, hd⟩ := Option.isSome_iff_exists.mp hc
    have hs : hexStep acc c = acc * 16 + d := by simp [hexStep, hd]
    simp only [parseHexNatAux, hd, List.foldl_cons, hs]
    exact ih (acc * 16 + d) (fun x hx => h x (List.mem_cons_of_mem c hx))

theorem parseHexNatAux_invalid (cs : List Char) :
    ∀ acc : Nat, (∃ c ∈ cs, hexDigitValue c = none) →
      parseHexNatAux cs acc = none := by
  induction cs with
  | nil =>
    intro acc h
    obtain ⟨c, hc, _⟩ := h
    exact absurd hc (List.not_mem_nil c)
  | cons c cs ih =>
    intro acc h
    cases hd : hexDigitValue c with
    | none => simp [parseHexNatAux, hd]
    | some d =>
      obtain ⟨x, hx, hxn⟩ := h
      rcases List.mem_cons.mp hx with rfl | hx'
      · rw [hd] at hxn; cases hxn
      · simp only [parseHexNatAux, hd]
        exact ih _ ⟨x, hx', hxn⟩

theorem parseHexNat_valid (cs : List Char) (hne : cs ≠ [])
    (h : ∀ c ∈ cs, (hexDigitValue c).isSome) :
    parseHexNat cs = some (hexValue cs) := by
  cases cs with
  | nil => exact absurd rfl hne
  | cons c cs => exact parseHexNatAux_valid (c :: cs) 0 h

theorem parseHexNat_some (cs : List Char) (n : Nat)
    (h : parseHexNat cs = some n) :
    cs ≠ [] ∧ (∀ c ∈ cs, (hexDigitValue c).isSome) ∧ n = hexValue cs := by
  cases cs with
  | nil => cases h
  | cons c cs =>
    by_cases hall : ∀ x ∈ c :: cs, (hexDigitValue x).isSome
    · refine ⟨List.cons_ne_nil c cs, hall, ?_⟩
      rw [parseHexNat_valid (c :: cs) (List.cons_ne_nil c cs) hall] at h
      exact (Option.some_injective _ h).symm
    · exfalso
      push_neg at hall
      obtain ⟨x, hx, hxn⟩ := hall
      have : parseHexNat (c :: cs) = none := by
        show parseHexNatAux (c :: cs) 0 = none
        exact parseHexNatAux_invalid (c :: cs) 0
          ⟨x, hx, Option.not_isSome_iff_eq_none.mp hxn⟩
      rw [this] at h
      cases h

theorem signSplit_of_head_hex (c : Char) (cs : List Char)
    (h : (hexDigitValue c).isSome) : signSplit (c :: cs) = (false, c :: cs) := by
  have h1 : c ≠ '+' := by rintro rfl; revert h; decide
  have h2 : c ≠ '-' := by rintro rfl; revert h; decide
  simp [signSplit, h1, h2]

theorem trimPrefix0x_all_hex (cs : List Char)
    (h : ∀ c ∈ cs, (hexDigitValue c).isSome) : trimPrefix0x cs = cs := by
  cases cs with
  | nil => rfl
  | cons c1 tl =>
    cases tl with
    | nil => rfl
    | cons c2 rest =>
      have h2 : (hexDigitValue c2).isSome := h c2 (by simp)
      have hne : ¬(c1 = '0' ∧ c2 = 'x') := by
        rintro ⟨rfl, rfl⟩
        revert h2; decide
      simp [trimPrefix0x, hne]

/-- A parse with no leading `-` sign yields a non-negative value. -/
theorem parseIntBase16_ok_nonneg (cs : List Char) (n : Int)
    (hsign : (signSplit cs).1 = false) (h : parseIntBase16 cs = Except.ok n) :
    0 ≤ n := by
  rcases hsp : signSplit cs with ⟨neg, ds⟩
  rw [hsp] at hsign
  simp only at hsign
  subst hsign
  simp only [parseIntBase16, hsp] at h
  cases hpn : parseHexNat ds with
  | none => simp [hpn] at h
  | some m =>
    simp only [hpn] at h
    by_cases hm : m < 9223372036854775808
    · rw [if_pos hm] at h
      cases h
      exact Int.natCast_nonneg m
    · rw [if_neg hm] at h
      cases h

/-- A decode with no leading `-` sign on the trimmed body yields a
non-negative value. -/
theorem hexToInt_nonneg_of_unsigned (s : String)
    (hsign : (signSplit (trimPrefix0x s.data)).1 = false)
    (n : Int) (h : hexToInt s = Except.ok n) : 0 ≤ n :=
  parseIntBase16_ok_nonneg (trimPrefix0x s.data) n hsign h

/-! ## Re-encoding to lowercase hex (for the decode/encode round trip) -/

/-- The lowercase hex character for a digit value below 16. -/
def toHexChar (d : Nat) : Char :=
  if d < 10 then Char.ofNat (48 + d) else Char.ofNat (87 + d)

/-- Fuel-bounded hex printer: most significant digit first. -/
def natToHexAux : Nat → Nat → List Char
  | 0, _ => []
  | fuel + 1, n =>
    if n < 16 then [toHexChar n]
    else natToHexAux fuel (n / 16) ++ [toHexChar (n % 16)]

/-- Lowercase hex digits of `n`, without leading zeros (`0` prints as `"0"`).
`n + 1` units of fuel always suffice since `n < 16 ^ (n + 1)`. -/
def natToHex (n : Nat) : List Char := natToHexAux (n + 1) n

theorem toHexChar_hex : ∀ d : Nat, d < 16 →
    hexDigitValue (toHexChar d) = some d := by decide

theorem hexValue_append_singleton (xs : List Char) (c : Char) :
    hexValue (xs ++ [c]) = hexValue xs * 16 + (hexDigitValue c).getD 0 := by
  simp [hexValue, List.foldl_append, hexStep]

theorem natToHexAux_value : ∀ fuel n : Nat, n < 16 ^ fuel →
    hexValue (natToHexAux fuel n) = n := by
  intro fuel
  induction fuel with
  | zero =>
    intro n hn
    have : n = 0 := by simpa using Nat.lt_one_iff.mp (by simpa using hn)
    subst this
    rfl
  | succ fuel ih =>
    intro n hn
    by_cases h16 : n < 16
    · simp [natToHexAux, h16, hexValue, hexStep, toHexChar_hex n h16]
    · have hdiv : n / 16 < 16 ^ fuel := by
        rw [Nat.div_lt_iff_lt_mul (by norm_num : 0 < 16)]
        calc n < 16 ^ (fuel + 1) := hn
          _ = 16 ^ fuel * 16 := by rw [pow_succ]
      have hmod : n % 16 < 16 := Nat.mod_lt n (by norm_num)
      simp only [natToHexAux, h16, if_false, hexValue_append_singleton,
        ih (n / 16) hdiv, toHexChar_hex (n % 16) hmod, Option.getD_some]
      omega

theorem natToHex_value (n : Nat) : hexValue (natToHex n) = n := by
  apply natToHexAux_value
  calc n < 2 ^ n := Nat.lt_two_pow n
    _ ≤ 16 ^ n := Nat.pow_le_pow_left (by norm_num) n
    _ ≤ 16 ^ (n + 1) := Nat.pow_le_pow_right (by norm_num) (Nat.le_succ n)

/-! ## Characterisation of `hexToInt` -/

theorem trimPrefix0x_0x (ds : List Char) :
    trimPrefix0x ('0' :: 'x' :: ds) = ds := by
  simp [trimPrefix0x]

/-- `hexToInt` succeeds exactly when, after `0x`-stripping and removing an
optional single leading sign, the body is a non-empty string of hex digits
whose value fits the signed 64-bit range. -/
theorem hexToInt_ok_iff (s : String) (neg : Bool) (ds : List Char)
    (hsp : signSplit (trimPrefix0x s.data) = (neg, ds)) :
    (∃ n, hexToInt s = Except.ok n) ↔
      (ds ≠ [] ∧ (∀ c ∈ ds, (hexDigitValue c).isSome) ∧
        (if neg then hexValue ds ≤ 9223372036854775808
         else hexValue ds < 9223372036854775808)) := by
  unfold hexToInt
  simp only [parseIntBase16, hsp]
  cases hpn : parseHexNat ds with
  | none =>
    simp only [hpn]
    constructor
    · rintro ⟨n, hn⟩; cases hn
    · rintro ⟨hne, hall, _⟩
      rw [parseHexNat_valid ds hne hall] at hpn
      cases hpn
  | some m =>
    obtain ⟨hne, hall, hm⟩ := parseHexNat_some ds m hpn
    subst hm
    simp only [hpn]
    cases neg with
    | true =>
      by_cases hle : hexValue ds ≤ 9223372036854775808
      · simp only [hle, if_true]
        simp [hne]
        exact hall
      · simp [hle, hne, hall]
    | false =>
      by_cases hlt : hexValue ds < 9223372036854775808
      · simp only [hlt, if_true]
        simp [hne]
        exact hall
      · simp [hlt, hne, hall]

/-- On an unprefixed, unsigned, non-empty all-hex string within range,
`hexToInt` returns the base-16 value of the whole string. -/
theorem hexToInt_no_prefix_ok (s : String) (hne : s.data ≠ [])
    (hall : ∀ c ∈ s.data, (hexDigitValue c).isSome)
    (hrange : hexValue s.data < 9223372036854775808) :
    hexToInt s = Except.ok (hexValue s.data) := by
  unfold hexToInt
  rw [trimPrefix0x_all_hex s.data hall]
  obtain ⟨c, cs, hd⟩ := List.exists_cons_of_ne_nil hne
  rw [hd] at hall hrange ⊢
  have hsp := signSplit_of_head_hex c cs (hall c (by simp))
  simp only [parseIntBase16, hsp,
    parseHexNat_valid (c :: cs) (List.cons_ne_nil c cs) hall]
  simp [hrange]

/-- On a `0x`-prefixed non-empty all-hex string within range, `hexToInt`
returns the base-16 value of the digits after the prefix. -/
theorem hexToInt_prefixed_ok (s : String) (ds : List Char)
    (hd : s.data = '0' :: 'x' :: ds) (hne : ds ≠ [])
    (hall : ∀ c ∈ ds, (hexDigitValue c).isSome)
    (hrange : hexValue ds < 9223372036854775808) :
    hexToInt s = Except.ok (hexValue ds) := by
  unfold hexToInt
  rw [hd, trimPrefix0x_0x]
  obtain ⟨c, cs, hds⟩ := List.exists_cons_of_ne_nil hne
  rw [hds] at hall hrange ⊢
  have hsp := signSplit_of_head_hex c cs (hall c (by simp))
  simp only [parseIntBase16, hsp,
    parseHexNat_valid (c :: cs) (List.cons_ne_nil c cs) hall]
  simp [hrange]

/-! ## Lemmas about the probe step -/

theorem healthyVal_01 (pr : ProbeResult) :
    healthyVal pr = 0 ∨ healthyVal pr = 1 := by
  cases pr with
  | connectErr => left; rfl
  | callErr => left; rfl
  | ok raw =>
    cases h : hexToInt raw with
    | error e => left; simp [healthyVal, h]
    | ok n => right; simp [healthyVal, h]

theorem check_rpcHealthy_self (st : GaugeState) (ep : Endpoint)
    (pr : ProbeResult) :
    (checkBlockchainRPC st ep pr).rpcHealthy ep.name = some (healthyVal pr) := by
  cases pr with
  | connectErr => simp [checkBlockchainRPC, healthyVal, setGauge]
  | callErr => simp [checkBlockchainRPC, healthyVal, setGauge]
  | ok raw =>
    cases h : hexToInt raw with
    | error e => simp [checkBlockchainRPC, healthyVal, h, setGauge]
    | ok n => simp [checkBlockchainRPC, healthyVal, h, setGauge]

theorem check_rpcHealthy_other (st : GaugeState) (ep : Endpoint)
    (pr : ProbeResult) (name : String) (h : name ≠ ep.name) :
    (checkBlockchainRPC st ep pr).rpcHealthy name = st.rpcHealthy name := by
  cases pr with
  | connectErr => simp [checkBlockchainRPC, setGauge, h]
  | callErr => simp [checkBlockchainRPC, setGauge, h]
  | ok raw =>
    cases hr : hexToInt raw with
    | error e => simp [checkBlockchainRPC, setGauge, hr, h]
    | ok n => simp [checkBlockchainRPC, setGauge, hr, h]

/-- On any failing probe the step only writes `rpc_healthy := 0`. -/
theorem check_of_fail (st : GaugeState) (ep : Endpoint) (pr : ProbeResult)
    (h : probeFails pr) :
    checkBlockchainRPC st ep pr
      = { st with rpcHealthy := setGauge st.rpcHealthy ep.name 0 } := by
  rcases h with rfl | rfl | ⟨raw, e, rfl, he⟩
  · rfl
  · rfl
  · simp [checkBlockchainRPC, he]

/-- If the probe step changed `block_number` at all, it wrote
`rpc_healthy = 1` for its endpoint in the same step. -/
theorem check_blockNumber_change (st : GaugeState) (ep : Endpoint)
    (pr : ProbeResult)
    (h : (checkBlockchainRPC st ep pr).blockNumber ≠ st.blockNumber) :
    (checkBlockchainRPC st ep pr).rpcHealthy ep.name = some 1 := by
  cases pr with
  | connectErr => exact absurd rfl h
  | callErr => exact absurd rfl h
  | ok raw =>
    cases hr : hexToInt raw with
    | error e =>
      exfalso; apply h
      simp [checkBlockchainRPC, hr]
    | ok n => simp [checkBlockchainRPC, hr, setGauge]

/-! ## Lemmas about the per-cycle loop -/

theorem runCycle_rpcHealthy_01_preserved (eps : List Endpoint)
    (net : Endpoint → ProbeResult) :
    ∀ (st : GaugeState) (name : String),
      (st.rpcHealthy name = some 0 ∨ st.rpcHealthy name = some 1) →
      ((runCycle eps net st).rpcHealthy name = some 0 ∨
        (runCycle eps net st).rpcHealthy name = some 1) := by
  induction eps with
  | nil => intro st name h; exact h
  | cons ep rest ih =>
    intro st name h
    apply ih
    by_cases hn : name = ep.name
    · subst hn
      rw [check_rpcHealthy_self]
      rcases healthyVal_01 (net ep) with h0 | h1
      · left; rw [h0]
      · right; rw [h1]
    · rw [check_rpcHealthy_other st ep (net ep) name hn]
      exact h

theorem runCycle_mem_01 (eps : List Endpoint) (net : Endpoint → ProbeResult) :
    ∀ (st : GaugeState) (ep : Endpoint), ep ∈ eps →
      ((runCycle eps net st).rpcHealthy ep.name = some 0 ∨
        (runCycle eps net st).rpcHealthy ep.name = some 1) := by
  induction eps with
  | nil => intro st ep h; cases h
  | cons e rest ih =>
    intro st ep hmem
    rcases List.mem_cons.mp hmem with rfl | h'
    · have h0 : (checkBlockchainRPC st ep (net ep)).rpcHealthy ep.name = some 0 ∨
          (checkBlockchainRPC st ep (net ep)).rpcHealthy ep.name = some 1 := by
        rw [check_rpcHealthy_self]
        rcases healthyVal_01 (net ep) with h0 | h1
        · left; rw [h0]
        · right; rw [h1]
      exact runCycle_rpcHealthy_01_preserved rest net
        (checkBlockchainRPC st ep (net ep)) ep.name h0
    · exact ih (checkBlockchainRPC st e (net e)) ep h'

theorem runCycle_rpcHealthy_frame (eps : List Endpoint)
    (net : Endpoint → ProbeResult) :
    ∀ (st : GaugeState) (name : String), name ∉ eps.map Endpoint.name →
      (runCycle eps net st).rpcHealthy name = st.rpcHealthy name := by
  induction eps with
  | nil => intro st name _; rfl
  | cons e rest ih =>
    intro st name h
    rw [List.map_cons, List.mem_cons] at h
    push_neg at h
    show (runCycle rest net (checkBlockchainRPC st e (net e))).rpcHealthy name
      = st.rpcHealthy name
    rw [ih _ name h.2, check_rpcHealthy_other st e (net e) name h.1]

theorem runCycle_rpcHealthy_of_nodup (eps : List Endpoint)
    (net : Endpoint → ProbeResult) :
    ∀ (st : GaugeState) (ep : Endpoint), (eps.map Endpoint.name).Nodup →
      ep ∈ eps →
      (runCycle eps net st).rpcHealthy ep.name = some (healthyVal (net ep)) := by
  induction eps with
  | nil => intro st ep _ h; cases h
  | cons e rest ih =>
    intro st ep hnd hmem
    rw [List.map_cons, List.nodup_cons] at hnd
    rcases List.mem_cons.mp hmem with rfl | h'
    · show (runCycle rest net (checkBlockchainRPC st ep (net ep))).rpcHealthy
        ep.name = some (healthyVal (net ep))
      rw [runCycle_rpcHealthy_frame rest net _ ep.name
          (by simpa using hnd.1),
        check_rpcHealthy_self]
    · exact ih (checkBlockchainRPC st e (net e)) ep hnd.2 h'

theorem runCycleTrace_snd (eps : List Endpoint) (net : Endpoint → ProbeResult) :
    ∀ st : GaugeState, (runCycleTrace eps net st).2 = eps := by
  induction eps with
  | nil => intro st; rfl
  | cons e rest ih =>
    intro st
    simp [runCycleTrace, ih]

theorem runCycleTrace_fst (eps : List Endpoint) (net : Endpoint → ProbeResult) :
    ∀ st : GaugeState, (runCycleTrace eps net st).1 = runCycle eps net st := by
  induction eps with
  | nil => intro st; rfl
  | cons e rest ih =>
    intro st
    simp [runCycleTrace, runCycle, ih]

/-! ## Claims -/

/-- C1: for every endpoint whose probe succeeds and whose raw result decodes
successfully, `checkBlockchainRPC` writes `rpc_healthy[endpoint.name] = 1`
and `block_number[endpoint.name] =` the decoded value. -/
theorem C1_success_sets_healthy_and_block (st : GaugeState) (ep : Endpoint)
    (raw : String) (n : Int) (h : hexToInt raw = Except.ok n) :
    (checkBlockchainRPC st ep (ProbeResult.ok raw)).rpcHealthy ep.name
        = some 1 ∧
    (checkBlockchainRPC st ep (ProbeResult.ok raw)).blockNumber ep.name
        = some n := by
  constructor
  · simp [checkBlockchainRPC, h, setGauge]
  · simp [checkBlockchainRPC, h, setGauge]

/-- Witness for C1: a cycle completing successfully with raw result
`"0x1b4"` leaves `rpc_healthy = 1` and `block_number = 436`. -/
theorem C1_witness :
    hexToInt "0x1b4" = Except.ok 436 ∧
    ((checkBlockchainRPC stEmpty epA (ProbeResult.ok "0x1b4")).rpcHealthy "A"
        = some 1 ∧
     (checkBlockchainRPC stEmpty epA (ProbeResult.ok "0x1b4")).blockNumber "A"
        = some 436) :=
  ⟨rfl, C1_success_sets_healthy_and_block stEmpty epA "0x1b4" 436 rfl⟩

/-- C2: for every endpoint and every probe failing at any stage (connect,
call or decode), `checkBlockchainRPC` writes `rpc_healthy[endpoint.name] = 0`
and leaves the whole `block_number` gauge unchanged. -/
theorem C2_failure_unhealthy_and_block_frame (st : GaugeState) (ep : Endpoint)
    (pr : ProbeResult) (h : probeFails pr) :
    (checkBlockchainRPC st ep pr).rpcHealthy ep.name = some 0 ∧
    (checkBlockchainRPC st ep pr).blockNumber = st.blockNumber := by
  rw [check_of_fail st ep pr h]
  exact ⟨by simp [setGauge], rfl⟩

/-- Witness for C2 at a connect failure: `rpc_healthy = 0` and
`block_number` untouched. -/
theorem C2_witness :
    probeFails ProbeResult.connectErr ∧
    ((checkBlockchainRPC stEmpty epA ProbeResult.connectErr).rpcHealthy "A"
        = some 0 ∧
     (checkBlockchainRPC stEmpty epA ProbeResult.connectErr).blockNumber
        = stEmpty.blockNumber) :=
  ⟨Or.inl rfl,
    C2_failure_unhealthy_and_block_frame stEmpty epA ProbeResult.connectErr
      (Or.inl rfl)⟩

/-- C3 counterexample: `"-1b4"` decodes successfully to `-436` although the
remainder after `0x`-stripping contains the non-hex character `-`; decoding
therefore does not fail exactly on non-hex characters as claimed — a leading
sign is accepted. -/
theorem C3_counterexample :
    hexToInt "-1b4" = Except.ok (-436) ∧
    trimPrefix0x ("-1b4".data) = ['-', '1', 'b', '4'] ∧
    hexDigitValue '-' = none :=
  ⟨rfl, rfl, by decide⟩

/-- C3 (amended): `hexToInt` strips a leading `0x` if present, then accepts
an optional single leading sign (`+` or `-`), and fails exactly when the
remaining digit body is empty, contains a non-hex character, or lies outside
the signed 64-bit range (`≥ 2^63` unsigned, `> 2^63` negated). -/
theorem C3_amended_decode_characterisation (s : String) (neg : Bool)
    (ds : List Char) (hsp : signSplit (trimPrefix0x s.data) = (neg, ds)) :
    (∃ n, hexToInt s = Except.ok n) ↔
      (ds ≠ [] ∧ (∀ c ∈ ds, (hexDigitValue c).isSome) ∧
        (if neg then hexValue ds ≤ 9223372036854775808
         else hexValue ds < 9223372036854775808)) :=
  hexToInt_ok_iff s neg ds hsp

/-- Witness for the amended C3 at input `"-ff"`. -/
theorem C3_amended_witness :
    signSplit (trimPrefix0x "-ff".data) = (true, ['f', 'f']) ∧
    (∃ n, hexToInt "-ff" = Except.ok n) :=
  ⟨by decide,
    (C3_amended_decode_characterisation "-ff" true ['f', 'f'] (by decide)).mpr
      ⟨by decide, by decide, by decide⟩⟩

/-- C4 counterexample: a configuration with a positive interval but an empty
endpoint list and an empty method name is not rejected at startup — the
scheduler starts. -/
theorem C4_counterexample :
    (Config.mk [] 1 "" "").endpoints = [] ∧
    (Config.mk [] 1 "" "").method = "" ∧
    mainStartup (Config.mk [] 1 "" "") = StartupResult.started :=
  ⟨rfl, rfl, rfl⟩

/-- C4 (amended): startup behaviour depends only on the interval — the
endpoint list and method name are never validated; a zero interval is fatal
at startup (via the ticker panic, not a configuration check), and any
positive interval (up to 10^8 minutes, i.e. any value whose duration does
not overflow) starts the scheduler. -/
theorem C4_amended_startup (c : Config) :
    mainStartup c = mainStartup (Config.mk [] c.interval "" c.address) ∧
    (c.interval = 0 → mainStartup c = StartupResult.panicked) ∧
    (0 < c.interval → c.interval ≤ 100000000 →
      mainStartup c = StartupResult.started) := by
  refine ⟨rfl, ?_, ?_⟩
  · intro h
    have hz : durMinutes c.interval = 0 := by rw [h]; decide
    unfold mainStartup
    rw [hz]
    decide
  · intro h1 h2
    have h3 : 0 < c.interval * 60000000000 :=
      Int.mul_pos h1 (by norm_num)
    have h4 : c.interval * 60000000000 ≤ 6000000000000000000 := by
      calc c.interval * 60000000000 ≤ 100000000 * 60000000000 :=
            Int.mul_le_mul_of_nonneg_right h2 (by norm_num)
        _ = 6000000000000000000 := by norm_num
    have hmod : (c.interval * 60000000000 + 9223372036854775808)
          % 18446744073709551616
        = c.interval * 60000000000 + 9223372036854775808 :=
      Int.emod_eq_of_lt (by omega) (by omega)
    have hpos : 0 < durMinutes c.interval := by
      unfold durMinutes
      rw [hmod]
      omega
    unfold mainStartup
    rw [if_neg (by omega)]

/-- Witness for the amended C4: interval 1 with a normal configuration
starts the scheduler. -/
theorem C4_witness :
    (0 : Int) < 1 ∧ (1 : Int) ≤ 100000000 ∧
    mainStartup (Config.mk [epA] 1 "eth_blockNumber" "0.0.0.0:8080")
      = StartupResult.started :=
  ⟨by norm_num, by norm_num,
    (C4_amended_startup (Config.mk [epA] 1 "eth_blockNumber" "0.0.0.0:8080")).2.2
      (by norm_num) (by norm_num)⟩

/-- C5 counterexample: the raw result `"-1"` decodes successfully, so a
reachable probe outcome sets `blockchain_block_number` to the negative value
`-1`. -/
theorem C5_counterexample :
    (checkBlockchainRPC stEmpty epA (ProbeResult.ok "-1")).blockNumber "A"
      = some (-1) ∧
    (-1 : Int) < 0 :=
  ⟨rfl, by norm_num⟩

/-- C5 (amended): the value a successful probe writes to
`blockchain_block_number` is non-negative whenever the raw result carries no
leading minus sign after `0x`-stripping; the code itself does not enforce
non-negativity for signed raw results. -/
theorem C5_amended_block_nonneg (st : GaugeState) (ep : Endpoint)
    (raw : String) (n : Int) (hok : hexToInt raw = Except.ok n)
    (hsign : (signSplit (trimPrefix0x raw.data)).1 = false) :
    (checkBlockchainRPC st ep (ProbeResult.ok raw)).blockNumber ep.name
        = some n ∧ 0 ≤ n := by
  refine ⟨?_, hexToInt_nonneg_of_unsigned raw hsign n hok⟩
  simp [checkBlockchainRPC, hok, setGauge]

/-- Witness for the amended C5 at raw result `"0x1b4"`. -/
theorem C5_witness :
    hexToInt "0x1b4" = Except.ok 436 ∧
    (signSplit (trimPrefix0x "0x1b4".data)).1 = false ∧
    ((checkBlockchainRPC stEmpty epA (ProbeResult.ok "0x1b4")).blockNumber "A"
        = some 436 ∧ (0 : Int) ≤ 436) :=
  ⟨rfl, rfl, C5_amended_block_nonneg stEmpty epA "0x1b4" 436 rfl rfl⟩

/-- C6: decoding a valid `0x`-prefixed hex string within the signed 64-bit
range succeeds with the base-16 value of its digits, and re-encoding the
decoded value as lowercase hex without leading zeros (`natToHex`) recovers
the same numeric magnitude. -/
theorem C6_decode_encode_roundtrip (s : String) (ds : List Char)
    (hd : s.data = '0' :: 'x' :: ds) (hne : ds ≠ [])
    (hall : ∀ c ∈ ds, (hexDigitValue c).isSome)
    (hrange : hexValue ds < 9223372036854775808) :
    hexToInt s = Except.ok (hexValue ds) ∧
    hexValue (natToHex (hexValue ds)) = hexValue ds :=
  ⟨hexToInt_prefixed_ok s ds hd hne hall hrange, natToHex_value (hexValue ds)⟩

/-- Witness for C6 at `"0x1b4"`: decodes to 436, and `436` re-encodes to hex
digits of the same value. -/
theorem C6_witness :
    ("0x1b4".data = '0' :: 'x' :: ['1', 'b', '4'] ∧
      (['1', 'b', '4'] : List Char) ≠ [] ∧
      (∀ c ∈ (['1', 'b', '4'] : List Char), (hexDigitValue c).isSome) ∧
      hexValue ['1', 'b', '4'] < 9223372036854775808) ∧
    (hexToInt "0x1b4" = Except.ok 436 ∧
      hexValue (natToHex 436) = 436) :=
  ⟨⟨by decide, by decide, by decide, by decide⟩,
    C6_decode_encode_roundtrip "0x1b4" ['1', 'b', '4'] (by decide) (by decide)
      (by decide) (by decide)⟩

/-- C7: after a completed cycle every configured endpoint's `rpc_healthy`
gauge holds a value in {0, 1}, and any probe step that changes
`block_number` at all writes `rpc_healthy = 1` for its endpoint in the same
step — no step pairs a `block_number` update with `rpc_healthy = 0`. -/
theorem C7_gauge_invariant (eps : List Endpoint) (net : Endpoint → ProbeResult)
    (st : GaugeState) (ep : Endpoint) (hmem : ep ∈ eps) :
    ((runCycle eps net st).rpcHealthy ep.name = some 0 ∨
      (runCycle eps net st).rpcHealthy ep.name = some 1) ∧
    (∀ (st' : GaugeState) (e : Endpoint) (pr : ProbeResult),
      (checkBlockchainRPC st' e pr).blockNumber ≠ st'.blockNumber →
      (checkBlockchainRPC st' e pr).rpcHealthy e.name = some 1) :=
  ⟨runCycle_mem_01 eps net st ep hmem,
    fun st' e pr h => check_blockNumber_change st' e pr h⟩

/-- Witness for C7 on a one-endpoint cycle. -/
theorem C7_witness :
    epA ∈ [epA] ∧
    ((runCycle [epA] (fun _ => ProbeResult.ok "0x0") stEmpty).rpcHealthy "A"
        = some 0 ∨
      (runCycle [epA] (fun _ => ProbeResult.ok "0x0") stEmpty).rpcHealthy "A"
        = some 1) :=
  ⟨List.mem_singleton.mpr rfl,
    (C7_gauge_invariant [epA] (fun _ => ProbeResult.ok "0x0") stEmpty epA
      (List.mem_singleton.mpr rfl)).1⟩

/-- C8: in one cycle every configured endpoint is probed exactly once, in
configuration order, whatever the outcomes (no retry, no abort of the loop),
and — for distinct endpoint names — each endpoint's final `rpc_healthy`
value is determined by its own probe result alone, so one endpoint's failure
never affects another's probe. -/
theorem C8_error_containment (eps : List Endpoint)
    (net : Endpoint → ProbeResult) (st : GaugeState) :
    (runCycleTrace eps net st).2 = eps ∧
    (runCycleTrace eps net st).1 = runCycle eps net st ∧
    (∀ ep ∈ eps, (eps.map Endpoint.name).Nodup →
      (runCycle eps net st).rpcHealthy ep.name = some (healthyVal (net ep))) :=
  ⟨runCycleTrace_snd eps net st, runCycleTrace_fst eps net st,
    fun ep hmem hnd => runCycle_rpcHealthy_of_nodup eps net st ep hnd hmem⟩

/-- Witness for C8: endpoint `A` answers `0x0`, endpoint `B` refuses; the
cycle still probes both, and `B` ends at `rpc_healthy = 0` while the loop
ran to completion. -/
theorem C8_witness :
    (runCycleTrace [epA, epB] netAB stEmpty).2 = [epA, epB] ∧
    epB ∈ [epA, epB] ∧ (([epA, epB].map Endpoint.name).Nodup) ∧
    (runCycle [epA, epB] netAB stEmpty).rpcHealthy "B" = some 0 :=
  ⟨(C8_error_containment [epA, epB] netAB stEmpty).1,
    by decide, by decide,
    (C8_error_containment [epA, epB] netAB stEmpty).2.2 epB (by decide)
      (by decide)⟩

/-- C10 counterexample: `"8000000000000000"` (the hex digits of 2^63) is a
non-empty unprefixed string of hex digits, yet decoding fails with a range
error rather than succeeding. -/
theorem C10_counterexample :
    ("8000000000000000".data ≠ [] ∧
      ∀ c ∈ "8000000000000000".data, (hexDigitValue c).isSome) ∧
    hexToInt "8000000000000000" = Except.error DecodeErr.rangeErr :=
  ⟨⟨by decide, by decide⟩, rfl⟩

/-- C10 (amended): the decoder does not require the `0x` prefix — for every
non-empty string of hex digits whose value is below 2^63, decoding succeeds
with the base-16 value of the whole string. -/
theorem C10_amended_no_prefix (s : String) (hne : s.data ≠ [])
    (hall : ∀ c ∈ s.data, (hexDigitValue c).isSome)
    (hrange : hexValue s.data < 9223372036854775808) :
    hexToInt s = Except.ok (hexValue s.data) :=
  hexToInt_no_prefix_ok s hne hall hrange

/-- Witness for the amended C10 at `"1b4"`. -/
theorem C10_witness :
    ("1b4".data ≠ [] ∧ (∀ c ∈ "1b4".data, (hexDigitValue c).isSome) ∧
      hexValue "1b4".data < 9223372036854775808) ∧
    hexToInt "1b4" = Except.ok 436 :=
  ⟨⟨by decide, by decide, by decide⟩,
    C10_amended_no_prefix "1b4" (by decide) (by decide) (by decide)⟩
